import Mathlib

/-!
# Verification of the tasker-commonjs module loader

Shallow embedding of `src/require.ts` (CommonJS/node-style module loader for
Tasker).  Pure string helpers are translated directly; the stateful
resolver/loader is embedded as explicit state passing over a `St` record with a
fuel-indexed interpreter; the host primitives (`tasker.stat` shell probe,
`tasker.readFile`) are an explicit environment `Env`.  Module bodies (arbitrary
JavaScript in the source) are modelled by a small statement language with
JavaScript object-reference semantics over an explicit heap.
-/

namespace TaskerCJS

/-! ## Path utilities (src/require.ts lines 78-138)

JavaScript `String.prototype.split('/')` is modelled by `splitChar '/'`:
on the empty string it yields `[""]`, exactly as in JavaScript. -/

def splitCharAux (sep : Char) : List Char → List Char → List String
  | [], acc => [String.mk acc.reverse]
  | c :: cs, acc =>
    if c = sep then String.mk acc.reverse :: splitCharAux sep cs []
    else splitCharAux sep cs (c :: acc)

def splitChar (sep : Char) (s : String) : List String :=
  splitCharAux sep s.data []

/-- Bool-valued list prefix test (first argument is the prefix). -/
def listPrefix : List Char → List Char → Bool
  | [], _ => true
  | _ :: _, [] => false
  | a :: as, b :: bs => a = b && listPrefix as bs

/-- JS `s.startsWith (pre)` -/
def strStarts (s pre : String) : Bool :=
  listPrefix pre.data s.data

/-- JS `Array.prototype.join ('/')`. -/
def joinSegs : List String → String
  | [] => ""
  | [s] => s
  | s :: rest => s ++ "/" ++ joinSegs rest

/-- JS `s.slice (-1) == c`: the last character test (empty string has none). -/
def lastCharIs (s : String) (c : Char) : Bool :=
  s.data.getLast? = some c

/-- `basename` (line 78): last non-empty `/`-separated segment, from the end. -/
def basename (filepath : String) : Option String :=
  ((splitChar '/' filepath).reverse).find? (fun seg => seg ≠ "")

/-- Pop trailing segments (working on the reversed list) until a non-empty one
is removed: the `while (segments.length && !segments.pop());` loop. -/
def dropTrailRev : List String → List String
  | [] => []
  | "" :: rest => dropTrailRev rest
  | _ :: rest => rest

/-- `dirname` (line 86). -/
def dirname (filepath : String) : String :=
  if filepath = "" then "."
  else
    let segments := (dropTrailRev (splitChar '/' filepath).reverse).reverse
    let joined := joinSegs segments
    if joined = "" then (if strStarts filepath "/" then "/" else ".") else joined

/-- `extname` (line 98): the rightmost `.suffix` of the basename, matching the
regex `^.+(\.[^.]+)$` (at least one character before the dot, at least one
non-dot character after it). -/
def extname (filepath : String) : String :=
  match basename filepath with
  | none => ""
  | some b =>
    let r := b.data.reverse
    let suf := r.takeWhile (fun c => c ≠ '.')
    match r.dropWhile (fun c => c ≠ '.') with
    | '.' :: pre => if suf ≠ [] ∧ pre ≠ [] then String.mk ('.' :: suf.reverse) else ""
    | _ => ""

/-- `joinPath` (line 106): filter out empty arguments, then fold with
`path.replace (regex slash-opt-end) slash + seg.replace (regex lead-slash) empty`:
ensure one trailing slash on the accumulator, strip one leading slash from the
segment.  Note the fold starts from the empty string, whose
slash-ensuring step yields `"/"`. -/
def joinPath (paths : List String) : String :=
  (paths.filter (fun p => p ≠ "")).foldl
    (fun path seg =>
      (if lastCharIs path '/' then path else path ++ "/") ++
      (if strStarts seg "/" then seg.drop 1 else seg))
    ""

/-- JS truthiness of `segments[segments.length - 1]`: present and non-empty. -/
def lastTruthy : Option String → Bool
  | some l => l ≠ ""
  | none => false

/-- One iteration of the `normalizePath` loop (line 122).  `last?` is read
before the pop and the push condition re-uses that (stale) value, exactly as in
the source. -/
def normStep (segments : List String) (cur : String) : List String :=
  let last? := segments.getLast?
  let popped :=
    if cur = ".." ∧ lastTruthy last? ∧ last? ≠ some ".." then
      segments.dropLast
    else segments
  if (cur ≠ "" ∨ last? = none) ∧ cur ≠ "." ∧
      (cur ≠ ".." ∨ last? = none ∨ last? = some "..") then
    popped ++ [cur]
  else popped

/-- `normalizePath` (line 120): resolve `.` and `..` segments, drop repeated
separators, retain a trailing slash. -/
def normalizePath (filepath : String) : String :=
  let segments := (splitChar '/' filepath).foldl normStep []
  let segments := if lastCharIs filepath '/' then segments ++ [""] else segments
  joinSegs segments

/-! ## Filesystem probe (src/require.ts lines 147-171)

`FileType` in the source is a string-valued enum (`type FileType = string`). -/

def FileType.Directory : String := "directory"
def FileType.RegularFile : String := "regular file"
def FileType.Unknown : String := "unknown"

/-- `filepath.replace (regex single-quote, global) "'\\''"`: every embedded
single quote becomes quote-backslash-quote-quote. -/
def escapeQuotes (s : String) : String :=
  String.mk (s.data.flatMap (fun c => if c = '\'' then ['\'', '\\', '\'', '\''] else [c]))

/-- `escapedFilepath` (line 162): the path wrapped in single quotes with embedded
single quotes escaped. -/
def escapedFilepath (filepath : String) : String :=
  "'" ++ escapeQuotes filepath ++ "'"

/-- The exact shell command template passed to `tasker.shell` (lines 164-170),
with the escaped path and the `FileType` tags interpolated. -/
def statCommand (filepath : String) : String :=
  "\n\t\t\tif [ -d " ++ escapedFilepath filepath ++ " ]; then\n\t\t\t\techo \"" ++
  FileType.Directory ++ "\"\n\t\t\telif [ -f " ++ escapedFilepath filepath ++
  " ]; then\n\t\t\t\techo \"" ++ FileType.RegularFile ++ "\"\n\t\t\tfi\n\t\t"

/-- The three arguments `stat` passes to `tasker.shell`: the command, `asRoot =
false`, and a 30-second timeout. -/
def statShellArgs (filepath : String) : String × Bool × Nat :=
  (statCommand filepath, false, 30)

/-- `... || FileType.Unknown` (line 170): empty shell output (JS falsy)
classifies as Unknown. -/
def statOfOutput (out : String) : String :=
  if out = "" then FileType.Unknown else out

/-- `stat` (line 160), with the host `tasker.shell` primitive passed in as an
oracle taking (command, asRoot, timeoutSeconds). -/
def stat (shell : String → Bool → Nat → String) (filepath : String) : String :=
  statOfOutput (shell (statShellArgs filepath).1 (statShellArgs filepath).2.1
    (statShellArgs filepath).2.2)

mutual

/-- POSIX shell single-word lexing, restricted to single-quoted segments and
backslash escapes: used to show the quoted path round-trips to the original
string (injection safety of `escapedFilepath`). -/
def shUnquote : List Char → Option (List Char)
  | [] => some []
  | '\'' :: rest => shUnquoteInQuote rest
  | '\\' :: c :: rest => (shUnquote rest).map (fun t => c :: t)
  | '\\' :: [] => none
  | c :: rest => (shUnquote rest).map (fun t => c :: t)

/-- Inside a single-quoted segment: everything literal until the closing quote. -/
def shUnquoteInQuote : List Char → Option (List Char)
  | [] => none
  | '\'' :: rest => shUnquote rest
  | c :: rest => (shUnquoteInQuote rest).map (fun t => c :: t)

end

/-! ## Values, heap, module records

JavaScript objects are heap cells addressed by allocation order; `Value.vref`
is an object reference, so Lean equality of `vref`s is JS `===` on objects. -/

/-- Primitive JSON values (for `package.json` fields and `.json` modules). -/
inductive JsonPrim where
  | js (s : String)
  | jn (n : Int)
  | jb (b : Bool)
  | jnull
deriving DecidableEq, Repr

/-- A shallowly parsed JSON document. -/
inductive JsonLit where
  | jobject (fields : List (String × JsonPrim))
  | jprim (p : JsonPrim)
deriving DecidableEq, Repr

/-- Runtime values: `undefined`, numbers, object references, parsed JSON. -/
inductive Value where
  | vundef
  | vnat (n : Nat)
  | vref (addr : Nat)
  | vjson (j : JsonLit)
deriving DecidableEq, Repr

/-- A JS object: its enumerable string-keyed properties in insertion order. -/
abbrev Obj : Type := List (String × Value)

/-- JS property write: overwrite in place or append. -/
def objSet (o : Obj) (k : String) (v : Value) : Obj :=
  match o with
  | [] => [(k, v)]
  | (k', v') :: rest =>
    if k' = k then (k, v) :: rest else (k', v') :: objSet rest k v

def objGet (o : Obj) (k : String) : Option Value :=
  match o with
  | [] => none
  | (k', v') :: rest => if k' = k then some v' else objGet rest k

def heapSet (h : List Obj) (a : Nat) (k : String) (v : Value) : List Obj :=
  h.set a (objSet (h.getD a []) k v)

/-- The `Module` record (src/require.ts lines 26-36): read-only `id`, a frozen
empty `default` container allocated at construction, and `exports` initially
aliasing it. -/
structure ModRec where
  id : String
  defaultAddr : Nat
  exports : Value
deriving DecidableEq, Repr

/-! ## Module bodies

Module source is arbitrary JavaScript in the source repository; it is modelled
by a small statement language over the scope bindings `require`, `module`,
`exports` that the loader injects (src/require.ts lines 296-299). -/

mutual

/-- Expressions a module body may evaluate. -/
inductive Expr where
  | lit (v : Value)
  | newObj
  | reqE (moduleId : String)
  | getProp (e : Expr) (k : String)

/-- Statements a module body may run. -/
inductive Stmt where
  | sSetExports (k : String) (e : Expr)
  | sSetModuleExports (k : String) (e : Expr)
  | sAssignExports (e : Expr)
  | sAssignModuleExports (e : Expr)
  | sExpr (e : Expr)

end

/-- What `tasker.readFile` plus parsing yields for a file: a script body, or a
text that parses as JSON.  `none` from `Env.read` models an unreadable or empty
file (JS falsy source, line 284). -/
inductive FileContent where
  | script (body : List Stmt)
  | jsonData (j : JsonLit)

/-- The host environment: the `stat` probe result for each path (the shell
oracle composed with `stat`, returning a `FileType` string) and the readable
file contents. -/
structure Env where
  stat : String → String
  read : String → Option FileContent

/-- Process state: the JS heap, the module cache, the resolution cache (keyed
by the `JSON.stringify`-ed pair, modelled as the pair itself), and
`require.paths`. -/
structure St where
  heap : List Obj
  cache : String → Option ModRec
  rcache : String × String → Option String
  paths : List String

/-- Scope of an executing module body: the module it belongs to (`this` /
`module` binding, identified by its cache key) and the current value of the
free `exports` binding. -/
structure Scope where
  curId : String
  exportsV : Value
deriving DecidableEq, Repr

/-! ## Resolver (src/require.ts lines 176-269) -/

/-- `resolveSearchPaths` (line 176).  JS truthiness: `directory` must be
non-empty to count as known. -/
def resolveSearchPaths (moduleId directory : String) (reqPaths : List String) :
    List String :=
  if strStarts moduleId "/" then [""]
  else if (strStarts moduleId "./" ∨ strStarts moduleId "../") ∧
      directory ≠ "" ∧ directory ≠ "." then [directory]
  else if directory ≠ "" ∧ directory ≠ "." then reqPaths ++ [directory]
  else reqPaths

/-- `resolveExtension` (line 264): optionally accept the exact path, then try
`.js`, then `.json`. -/
def resolveExtension (env : Env) (filepath : String) (checkWithNoExt : Bool) :
    Option String :=
  if checkWithNoExt ∧ env.stat filepath = FileType.RegularFile then some filepath
  else if env.stat (filepath ++ ".js") = FileType.RegularFile then
    some (filepath ++ ".js")
  else if env.stat (filepath ++ ".json") = FileType.RegularFile then
    some (filepath ++ ".json")
  else none

/-- `pkg?.main` after `safeParseJson` of `package.json` text: a JSON object
with a truthy (non-empty) string `main` field; anything else yields nothing. -/
def pkgMain : FileContent → Option String
  | .jsonData (.jobject fields) =>
    match fields.lookup "main" with
    | some (.js m) => if m = "" then none else some m
    | _ => none
  | _ => none

/-- `resolvePackage` (line 238).  Note that a `main` naming a directory is
probed and resolved as-is (not joined onto `filepath`), as in the source. -/
def resolvePackage (env : Env) (filepath : String) : Option String :=
  let pkgfile := joinPath [filepath, "package.json"]
  let main? : Option String :=
    if env.stat pkgfile = FileType.RegularFile then
      (match env.read pkgfile with
       | some c => pkgMain c
       | none => none)
    else none
  match main? with
  | some m =>
    if env.stat m = FileType.Directory then
      resolveExtension env (joinPath [m, "index"]) false
    else
      resolveExtension env (normalizePath (joinPath [filepath, m])) true
  | none => resolveExtension env (joinPath [filepath, "index"]) false

/-- One iteration of the `resolveFile` candidate loop (lines 206-229): exact
file, then package/directory resolution, then `node_modules` fallback, then
extension inference; the first success wins. -/
def tryCandidate (env : Env) (moduleId : String) (path : String) :
    Option String :=
  let filepath := normalizePath (joinPath [path, moduleId])
  let filetype := env.stat filepath
  if filetype = FileType.RegularFile then some filepath
  else
    match (if filetype = FileType.Directory then resolvePackage env filepath
           else none) with
    | some f => some f
    | none =>
      match (if moduleId.data.contains '/' = false ∧
                basename path ≠ some "node_modules" then
              (let modulepath := normalizePath (joinPath [path, "node_modules", moduleId])
               if env.stat modulepath = FileType.Directory then
                 resolvePackage env modulepath
               else none)
             else none) with
      | some f => some f
      | none =>
        if lastCharIs filepath '/' = false then
          resolveExtension env filepath false
        else none

/-- `resolveFile` (line 199): resolution-cache lookup, then the candidate loop
over `resolveSearchPaths`; only successes are stored in the cache. -/
def resolveFileM (env : Env) (st : St) (moduleId directory : String) :
    Option String × St :=
  match st.rcache (moduleId, directory) with
  | some f => (some f, st)
  | none =>
    match List.findSome? (tryCandidate env moduleId)
        (resolveSearchPaths moduleId directory st.paths) with
    | some f =>
      (some f,
       { st with rcache := fun k => if k = (moduleId, directory) then some f
                                    else st.rcache k })
    | none => (none, st)

/-! ## Export reconciliation (src/require.ts lines 308-325)

`resolveExports` runs in the module scope after the body; it switches on
`module.default` (strict equality) against `module.exports` and the scope's
`exports` binding.  `module.default` is always the reference to the
construction-time container, `Value.vref rec.defaultAddr`. -/

/-- The error text of line 322 (quote marks around the binding names in the
original message are omitted here). -/
def conflictMsg : String :=
  "Failed to resolve export - exports and module.exports have been assigned different values."

/-- `resolveExports`, acting on the module record (as held in the module
cache) and the scope's current `exports` value. -/
def resolveExportsF (rec : ModRec) (exportsV : Value) : Except String ModRec :=
  if rec.exports = Value.vref rec.defaultAddr then
    -- case module.exports: if it differs from `exports`, copy `exports` in
    .ok { rec with exports := exportsV }
  else if exportsV = Value.vref rec.defaultAddr then
    -- case exports: `module.exports` was modified directly, no change needed
    .ok rec
  else if rec.exports ≠ exportsV then
    .error conflictMsg
  else
    .ok rec

/-! ## Loader and entry point (src/require.ts lines 278-350)

Fuel-indexed interpreter; every recursive call consumes one unit of fuel, and
exhaustion is a distinguished error that no theorem treats as a behaviour of
the program. -/

def fuelMsg : String := "out of fuel"

/-- Update the cached record of module `id` to hold `v` as its exports
(JS mutation of the shared `module` object). -/
def setCacheExports (st : St) (id : String) (v : Value) : St :=
  match st.cache id with
  | some r =>
    { st with cache := fun k => if k = id then some { r with exports := v }
                                else st.cache k }
  | none => st

mutual

/-- The public `require` (line 333): resolve the identifier relative to the
caller's directory, then load; `callerId` is the id of the module bound as
`this` (the main module's empty id when called from outside any body). -/
def requireFn (env : Env) : Nat → St → String → String → Except String Value × St
  | 0, st, _, _ => (.error fuelMsg, st)
  | fuel + 1, st, callerId, moduleId =>
    match resolveFileM env st moduleId (dirname callerId) with
    | (none, st1) => (.error ("Module \"" ++ moduleId ++ "\" not found"), st1)
    | (some fp, st1) =>
      match loadFileF env fuel st1 fp with
      | (.error e, st2) => (.error e, st2)
      | (.ok none, st2) =>
        (.error ("Failed to load module \"" ++ moduleId ++ "\""), st2)
      | (.ok (some rec), st2) => (.ok rec.exports, st2)

/-- `loadFile` (line 278): cached record, or read the source, publish a fresh
record *before* executing the body, dispatch on the extension, and reconcile
exports.  `.ok none` is the `undefined` return for unreadable/empty files. -/
def loadFileF (env : Env) : Nat → St → String → Except String (Option ModRec) × St
  | 0, st, _ => (.error fuelMsg, st)
  | fuel + 1, st, fp =>
    match st.cache fp with
    | some rec => (.ok (some rec), st)
    | none =>
      match env.read fp with
      | none => (.ok none, st)
      | some content =>
        -- `new Module(filepath)`, published in the cache before the body runs
        let dAddr := st.heap.length
        let rec0 : ModRec := ⟨fp, dAddr, Value.vref dAddr⟩
        let st1 : St := { st with
          heap := st.heap ++ [[]],
          cache := fun k => if k = fp then some rec0 else st.cache k }
        if extname fp = ".json" then
          match content with
          | .jsonData j =>
            let rec1 : ModRec := { rec0 with exports := Value.vjson j }
            (.ok (some rec1), setCacheExports st1 fp (Value.vjson j))
          | .script _ => (.error "SyntaxError: unexpected token in JSON", st1)
        else
          let body := match content with
            | .script b => b
            | .jsonData _ => []
          match execBody env fuel st1 ⟨fp, Value.vref rec0.defaultAddr⟩ body with
          | (.error e, st2) => (.error e, st2)
          | (.ok scope, st2) =>
            let recCur := match st2.cache fp with
              | some r => r
              | none => rec0
            match resolveExportsF recCur scope.exportsV with
            | .error e => (.error e, st2)
            | .ok recF =>
              (.ok (some recF),
               { st2 with cache := fun k => if k = fp then some recF
                                            else st2.cache k })

/-- Run a module body statement by statement. -/
def execBody (env : Env) : Nat → St → Scope → List Stmt → Except String Scope × St
  | 0, st, _, _ => (.error fuelMsg, st)
  | _ + 1, st, sc, [] => (.ok sc, st)
  | fuel + 1, st, sc, s :: rest =>
    match execStmt env fuel st sc s with
    | (.error e, st') => (.error e, st')
    | (.ok sc', st') => execBody env fuel st' sc' rest

/-- Run one statement, with JS reference semantics: property writes mutate the
heap object currently referred to; assignments to `exports` rebind the scope;
assignments to `module.exports` mutate the shared cached record. -/
def execStmt (env : Env) : Nat → St → Scope → Stmt → Except String Scope × St
  | 0, st, _, _ => (.error fuelMsg, st)
  | fuel + 1, st, sc, stmt =>
    match stmt with
    | .sExpr e =>
      match evalExpr env fuel st sc e with
      | (.error er, st') => (.error er, st')
      | (.ok _, st') => (.ok sc, st')
    | .sAssignExports e =>
      match evalExpr env fuel st sc e with
      | (.error er, st') => (.error er, st')
      | (.ok v, st') => (.ok { sc with exportsV := v }, st')
    | .sAssignModuleExports e =>
      match evalExpr env fuel st sc e with
      | (.error er, st') => (.error er, st')
      | (.ok v, st') => (.ok sc, setCacheExports st' sc.curId v)
    | .sSetExports k e =>
      match evalExpr env fuel st sc e with
      | (.error er, st') => (.error er, st')
      | (.ok v, st') =>
        match sc.exportsV with
        | .vref a => (.ok sc, { st' with heap := heapSet st'.heap a k v })
        | _ => (.ok sc, st')
    | .sSetModuleExports k e =>
      -- the target reference `module.exports` is read before the RHS runs
      let target := match st.cache sc.curId with
        | some r => r.exports
        | none => Value.vundef
      match evalExpr env fuel st sc e with
      | (.error er, st') => (.error er, st')
      | (.ok v, st') =>
        match target with
        | .vref a => (.ok sc, { st' with heap := heapSet st'.heap a k v })
        | _ => (.ok sc, st')

/-- Evaluate an expression. -/
def evalExpr (env : Env) : Nat → St → Scope → Expr → Except String Value × St
  | 0, st, _, _ => (.error fuelMsg, st)
  | fuel + 1, st, sc, e =>
    match e with
    | .lit v => (.ok v, st)
    | .newObj => (.ok (Value.vref st.heap.length), { st with heap := st.heap ++ [[]] })
    | .reqE id => requireFn env fuel st sc.curId id
    | .getProp e' k =>
      match evalExpr env fuel st sc e' with
      | (.error er, st') => (.error er, st')
      | (.ok v, st') =>
        match v with
        | .vref a => (.ok ((objGet (st'.heap.getD a []) k).getD Value.vundef), st')
        | _ => (.ok Value.vundef, st')

end

/-- The initial process state: the main module's default container is the only
heap object, both caches are empty, and `require.paths` holds the directories
computed at initialization. -/
def initState (ps : List String) : St :=
  { heap := [[]], cache := fun _ => none, rcache := fun _ => none, paths := ps }

/-- `require.main` (line 353): `new Module('')`, allocated at initialization,
never inserted into the module cache. -/
def mainModule : ModRec := ⟨"", 0, Value.vref 0⟩

/-! ## Concrete scenarios (used as witnesses)

A circular pair: `/m/a.js` exports `x`, requires `./b.js`, then exports `y` and
finally reassigns `module.exports`; `/m/b.js` requires `./a.js` back while `a`
is still executing and records what it observes. -/

def bodyA : List Stmt :=
  [ .sSetExports "x" (.lit (.vnat 1)),
    .sExpr (.reqE "./b"),
    .sSetExports "y" (.lit (.vnat 2)),
    .sAssignModuleExports .newObj ]

def bodyB : List Stmt :=
  [ .sSetExports "seenX" (.getProp (.reqE "./a") "x"),
    .sSetExports "seenY" (.getProp (.reqE "./a") "y"),
    .sSetExports "captured" (.reqE "./a") ]

def envCyc : Env :=
  { stat := fun p => if p = "/a" ∨ p = "/b" then FileType.RegularFile
                     else FileType.Unknown,
    read := fun p => if p = "/a" then some (.script bodyA)
                     else if p = "/b" then some (.script bodyB)
                     else none }

/-- The full cyclic run: `require('/m/a.js')` from the main module. -/
def cycRun : Except String Value × St :=
  requireFn envCyc 20 (initState []) mainModule.id "/a"

/-- A single module, reachable both as the bare identifier `util` (via
extension inference under the search path) and as `./util.js`. -/
def envUtil : Env :=
  { stat := fun p => if p = "/l/u.js" then FileType.RegularFile
                     else FileType.Unknown,
    read := fun p => if p = "/l/u.js" then
                       some (.script [ .sSetExports "k" (.lit (.vnat 7)) ])
                     else none }

def utilRun1 : Except String Value × St :=
  requireFn envUtil 8 (initState ["/l"]) mainModule.id "u"

def utilRun2 : Except String Value × St :=
  requireFn envUtil 8 utilRun1.2 mainModule.id "./u.js"

/-- Both `foo.js` and `foo.json` exist under the search path `/sp`. -/
def envFoo : Env :=
  { stat := fun p => if p = "/s/f.js" ∨ p = "/s/f.json" then
                       FileType.RegularFile
                     else FileType.Unknown,
    read := fun _ => none }

/-- An empty filesystem, and the same filesystem after `/sp/newmod.js` has been
created. -/
def envEmpty : Env := { stat := fun _ => FileType.Unknown, read := fun _ => none }

def envLater : Env :=
  { stat := fun p => if p = "/s/n.js" then FileType.RegularFile
                     else FileType.Unknown,
    read := fun p => if p = "/s/n.js" then some (.script []) else none }

/-- A module body that reassigns both `exports` and `module.exports` to two
distinct fresh objects. -/
def envConf : Env :=
  { stat := fun p => if p = "/c" then FileType.RegularFile
                     else FileType.Unknown,
    read := fun p => if p = "/c" then
                       some (.script [ .sAssignExports .newObj,
                                       .sAssignModuleExports .newObj ])
                     else none }

def confRun : Except String Value × St :=
  requireFn envConf 8 (initState []) mainModule.id "/c"


/-- A mid-execution state for the cyclic scenario: `/m/a.js` is already in the
module cache (its body still running), holding its default container. -/
def recMidA : ModRec := ⟨"/a", 1, Value.vref 1⟩

def stMidCyc : St :=
  { heap := [[], []],
    cache := fun k => if k = "/a" then some recMidA else none,
    rcache := fun _ => none,
    paths := [] }

/-- A state holding only a memoized resolution for `("f", ".")`. -/
def stMemo : St :=
  { heap := [[]],
    cache := fun _ => none,
    rcache := fun k => if k = ("f", ".") then some "/s/f.js" else none,
    paths := [] }

/-! ## Helper lemmas -/

/-- The single-quote escaping round-trips through POSIX shell word lexing:
the character expansion of `escapeQuotes`, followed by a closing quote, lexes
back (inside a quoted segment) to the original characters. -/
lemma shUnquoteInQuote_escape (cs : List Char) :
    shUnquoteInQuote
      ((cs.flatMap (fun c => if c = '\'' then ['\'', '\\', '\'', '\''] else [c]))
        ++ ['\'']) = some cs := by
  induction cs with
  | nil => rfl
  | cons c cs ih =>
    by_cases h : c = '\''
    · subst h
      simp only [List.flatMap_cons, if_pos rfl, List.append_assoc, List.cons_append,
        List.nil_append]
      simp [shUnquoteInQuote, shUnquote, ih]
    · simp only [List.flatMap_cons, if_neg h, List.append_assoc, List.cons_append,
        List.nil_append]
      rw [shUnquoteInQuote]
      · simp [ih]
      · exact h

/-- The full quoted path lexes back to the original path. -/
lemma shUnquote_escapedFilepath (p : String) :
    shUnquote (escapedFilepath p).data = some p.data := by
  have : (escapedFilepath p).data
      = '\'' :: ((p.data.flatMap
          (fun c => if c = '\'' then ['\'', '\\', '\'', '\''] else [c])) ++ ['\'']) := by
    simp [escapedFilepath, escapeQuotes, String.data_append]
  rw [this, shUnquote]
  exact shUnquoteInQuote_escape p.data

/-- Resolution never touches the heap, the module cache, or the paths. -/
lemma resolveFileM_preserves (env : Env) (st : St) (id dir : String) :
    (resolveFileM env st id dir).2.cache = st.cache ∧
    (resolveFileM env st id dir).2.heap = st.heap ∧
    (resolveFileM env st id dir).2.paths = st.paths := by
  unfold resolveFileM
  rcases h : st.rcache (id, dir) with _ | f
  · rcases hf : List.findSome? (tryCandidate env id)
        (resolveSearchPaths id dir st.paths) with _ | g <;> simp
  · simp

/-- A resolution-cache hit returns the memoized path with the state untouched,
for any environment and any current `require.paths`. -/
lemma resolveFileM_rcache_hit (env : Env) (st : St) (id dir f : String)
    (h : st.rcache (id, dir) = some f) :
    resolveFileM env st id dir = (some f, st) := by
  unfold resolveFileM; rw [h]

/-- A missed resolution leaves the state untouched and implies both a
resolution-cache miss and the failure of every candidate probe. -/
lemma resolveFileM_none_inv (env : Env) (st : St) (id dir : String)
    (h : (resolveFileM env st id dir).1 = none) :
    (resolveFileM env st id dir).2 = st ∧
    st.rcache (id, dir) = none ∧
    List.findSome? (tryCandidate env id)
      (resolveSearchPaths id dir st.paths) = none := by
  unfold resolveFileM at h ⊢
  rcases hr : st.rcache (id, dir) with _ | f
  · rcases hf : List.findSome? (tryCandidate env id)
        (resolveSearchPaths id dir st.paths) with _ | g
    · simp
    · rw [hr, hf] at h; simp at h
  · rw [hr] at h; simp at h

/-- A resolution-cache miss with a successful probe memoizes and returns it. -/
lemma resolveFileM_found (env : Env) (st : St) (id dir f : String)
    (h1 : st.rcache (id, dir) = none)
    (h2 : List.findSome? (tryCandidate env id)
      (resolveSearchPaths id dir st.paths) = some f) :
    resolveFileM env st id dir =
      (some f,
       { st with rcache := fun k => if k = (id, dir) then some f
                                    else st.rcache k }) := by
  unfold resolveFileM; rw [h1, h2]

/-- A module-cache hit makes `loadFile` return the cached record immediately:
the state is untouched and the environment is never consulted (no re-read, no
re-execution). -/
lemma loadFileF_cacheHit (env : Env) (fuel : Nat) (st : St) (fp : String)
    (rec : ModRec) (h : st.cache fp = some rec) :
    loadFileF env (fuel + 1) st fp = (.ok (some rec), st) := by
  rw [loadFileF, h]

/-- The final-dispatch step of a script load: if export reconciliation on the
current record succeeds, the returned record is stored under the path. -/
lemma loadTail_cache (st2 : St) (fp : String) (recCur : ModRec) (v : Value)
    (rec : ModRec) (st' : St)
    (h : (match resolveExportsF recCur v with
          | .error e => ((.error e : Except String (Option ModRec)), st2)
          | .ok recF =>
            (.ok (some recF),
             { st2 with cache := fun k => if k = fp then some recF
                                          else st2.cache k })) =
      (.ok (some rec), st')) :
    st'.cache fp = some rec := by
  rcases hx : resolveExportsF recCur v with e | recF <;> rw [hx] at h
  · exact absurd h (by simp)
  · simp only [Prod.mk.injEq, Except.ok.injEq, Option.some.injEq] at h
    rcases h with ⟨h1, h2⟩
    subst h1; subst h2
    simp

/-- A successful `loadFile` leaves its returned record in the module cache
under the loaded path. -/
lemma loadFileF_ok_cache (env : Env) (fuel : Nat) (st : St) (fp : String)
    (rec : ModRec) (st' : St)
    (h : loadFileF env fuel st fp = (.ok (some rec), st')) :
    st'.cache fp = some rec := by
  match fuel with
  | 0 => rw [loadFileF] at h; simp at h
  | fuel + 1 =>
    rw [loadFileF] at h
    rcases hc : st.cache fp with _ | rec0
    case some =>
      simp only [hc, Prod.mk.injEq, Except.ok.injEq, Option.some.injEq] at h
      rcases h with ⟨h1, h2⟩
      subst h1; subst h2
      exact hc
    case none =>
      simp only [hc] at h
      rcases hr : env.read fp with _ | content
      · simp only [hr] at h
        exact absurd h (by simp)
      · simp only [hr] at h
        rcases content with body | j
        · -- a script body
          by_cases hj : extname fp = ".json"
          · rw [if_pos hj] at h
            exact absurd h (by simp)
          · rw [if_neg hj] at h
            simp only at h
            rcases he : execBody env fuel
                { st with heap := st.heap ++ [[]],
                          cache := fun k => if k = fp then
                              some ⟨fp, st.heap.length, Value.vref st.heap.length⟩
                            else st.cache k }
                ⟨fp, Value.vref st.heap.length⟩ body
              with ⟨r, st2⟩
            rw [he] at h
            rcases r with e | scope
            · exact absurd h (by simp)
            · exact loadTail_cache st2 fp _ _ rec st' h
        · -- JSON content
          by_cases hj : extname fp = ".json"
          · rw [if_pos hj] at h
            simp only [Prod.mk.injEq, Except.ok.injEq, Option.some.injEq] at h
            rcases h with ⟨h1, h2⟩
            subst h1; subst h2
            simp [setCacheExports]
          · rw [if_neg hj] at h
            simp only at h
            rcases he : execBody env fuel
                { st with heap := st.heap ++ [[]],
                          cache := fun k => if k = fp then
                              some ⟨fp, st.heap.length, Value.vref st.heap.length⟩
                            else st.cache k }
                ⟨fp, Value.vref st.heap.length⟩ []
              with ⟨r, st2⟩
            rw [he] at h
            rcases r with e | scope
            · exact absurd h (by simp)
            · exact loadTail_cache st2 fp _ _ rec st' h

/-- A `require` whose identifier resolves to an already-cached module path
returns that record's current exports; the only state change is the
resolution-cache update made by the resolve step itself. -/
lemma require_cached (env : Env) (fuel : Nat) (st : St) (caller id A : String)
    (rec : ModRec)
    (h1 : st.cache A = some rec)
    (h2 : (resolveFileM env st id (dirname caller)).1 = some A) :
    requireFn env (fuel + 2) st caller id =
      (.ok rec.exports, (resolveFileM env st id (dirname caller)).2) := by
  have hpres := (resolveFileM_preserves env st id (dirname caller)).1
  rw [requireFn]
  rcases hp : resolveFileM env st id (dirname caller) with ⟨res, st1⟩
  rw [hp] at h2
  simp only at h2
  subst h2
  have hcache : st1.cache A = some rec := by
    rw [hp] at hpres; simp only at hpres; rw [hpres]; exact h1
  simp only [hp, loadFileF_cacheHit env fuel st1 A rec hcache]

/-- A successful `require` returns exactly the exports of the record that the
final state's module cache holds under the resolved path. -/
lemma require_ok_inv (env : Env) (fuel : Nat) (st : St) (caller id : String)
    (v : Value) (st1 : St)
    (h : requireFn env fuel st caller id = (.ok v, st1)) :
    ∃ F rec, (resolveFileM env st id (dirname caller)).1 = some F ∧
      st1.cache F = some rec ∧ v = rec.exports := by
  match fuel with
  | 0 => rw [requireFn] at h; simp at h
  | fuel + 1 =>
    rw [requireFn] at h
    rcases hp : resolveFileM env st id (dirname caller) with ⟨res, stA⟩
    rw [hp] at h
    rcases res with _ | F
    · exact absurd h (by simp)
    · simp only at h
      rcases hl : loadFileF env fuel stA F with ⟨r, st2⟩
      rw [hl] at h
      rcases r with e | o
      · exact absurd h (by simp)
      · rcases o with _ | rec
        · exact absurd h (by simp)
        · simp only [Prod.mk.injEq, Except.ok.injEq] at h
          rcases h with ⟨h1, h2⟩
          subst h1; subst h2
          exact ⟨F, rec, by simp [hp],
            loadFileF_ok_cache env fuel stA F rec st2 hl, rfl⟩

/-! ## Claim theorems -/

/-- C6: `normalizePath` satisfies the four stated laws:
`"a/./b/../c" ↦ "a/c"`, `"/a/../../b" ↦ "/b"` (cannot go above root),
`"a/../../b" ↦ "../b"` (relative paths may accumulate leading `..`), and a
trailing slash on the input is preserved (`"a/b/" ↦ "a/b/"`). -/
theorem claim_C6_normalizePath_laws :
    normalizePath "a/./b/../c" = "a/c" ∧
    normalizePath "/a/../../b" = "/b" ∧
    normalizePath "a/../../b" = "../b" ∧
    normalizePath "a/b/" = "a/b/" :=
  ⟨by decide, by decide, by decide, by decide⟩

/-- C7: evaluation of the code at the failing inputs.  `normalizePath` does
not preserve relativeness/absoluteness on all inputs: the relative input
`"./"` (which does not begin with `/`) normalizes to the absolute `"/"`, and
the absolute input `"/a/.."` normalizes to `""`, losing the leading
absolute-path marker.  Both contradict POSIX lexical normalization. -/
theorem claim_C7_normalizePath_escapes_relative :
    normalizePath "./" = "/" ∧
    strStarts "./" "/" = false ∧
    normalizePath "/a/.." = "" ∧
    strStarts "/a/.." "/" = true :=
  ⟨by decide, by decide, by decide, by decide⟩

/-- C2 counterexample: a module record whose `module.exports` was reassigned
(to the object at address 1) while the `exports` binding still holds the
construction-time default container (address 0).  The claim's branch (1)
condition (`module.exports` still the default) and branch (2) condition
(`module.exports` reference-equal to `exports`) both fail, so the claim as
stated demands a conflicting-exports failure — but the code's second switch
case compares `module.default` with `exports`, matches here, and succeeds,
keeping the reassigned `module.exports`. -/
theorem claim_C2_counterexample :
    resolveExportsF ⟨"/m/x.js", 0, Value.vref 1⟩ (Value.vref 0) =
      .ok ⟨"/m/x.js", 0, Value.vref 1⟩ ∧
    (Value.vref 1 : Value) ≠ Value.vref 0 :=
  ⟨rfl, by decide⟩

/-- C2 (amended): after a script body runs, reconciliation is: (1) if
`module.exports` is still the default container, `exports` becomes the
effective export; (2) otherwise if the `exports` binding is still the default
container (only `module.exports` was reassigned), nothing changes; (3)
otherwise, if `module.exports` and `exports` differ, the load fails with the
conflicting-exports error (demonstrated end-to-end by `confRun`), and if they
are equal nothing changes. -/
theorem claim_C2_resolveExports_branches (rec : ModRec) (v : Value) :
    (rec.exports = Value.vref rec.defaultAddr →
      resolveExportsF rec v = .ok { rec with exports := v }) ∧
    (rec.exports ≠ Value.vref rec.defaultAddr → v = Value.vref rec.defaultAddr →
      resolveExportsF rec v = .ok rec) ∧
    (rec.exports ≠ Value.vref rec.defaultAddr → v ≠ Value.vref rec.defaultAddr →
      rec.exports ≠ v → resolveExportsF rec v = .error conflictMsg) ∧
    (rec.exports ≠ Value.vref rec.defaultAddr → v ≠ Value.vref rec.defaultAddr →
      rec.exports = v → resolveExportsF rec v = .ok rec) ∧
    confRun.1 = .error conflictMsg := by
  refine ⟨?_, ?_, ?_, ?_, rfl⟩
  · intro h; rw [resolveExportsF, if_pos h]
  · intro h1 h2; rw [resolveExportsF, if_neg h1, if_pos h2]
  · intro h1 h2 h3
    rw [resolveExportsF, if_neg h1, if_neg h2, if_pos h3]
  · intro h1 h2 h3
    rw [resolveExportsF, if_neg h1, if_neg h2]
    simp [h3]

/-- C2 witness for the amended theorem: concrete instances of each branch. -/
theorem claim_C2_witness :
    resolveExportsF ⟨"/m/w.js", 0, Value.vref 0⟩ (Value.vref 5) =
      .ok ⟨"/m/w.js", 0, Value.vref 5⟩ ∧
    resolveExportsF ⟨"/m/w.js", 0, Value.vref 7⟩ (Value.vref 0) =
      .ok ⟨"/m/w.js", 0, Value.vref 7⟩ ∧
    resolveExportsF ⟨"/m/w.js", 0, Value.vref 7⟩ (Value.vref 8) =
      .error conflictMsg :=
  ⟨(claim_C2_resolveExports_branches ⟨"/m/w.js", 0, Value.vref 0⟩
      (Value.vref 5)).1 rfl,
   (claim_C2_resolveExports_branches ⟨"/m/w.js", 0, Value.vref 7⟩
      (Value.vref 0)).2.1 (by decide) rfl,
   (claim_C2_resolveExports_branches ⟨"/m/w.js", 0, Value.vref 7⟩
      (Value.vref 8)).2.2.1 (by decide) (by decide) (by decide)⟩

/-- C8: `stat` is a total tri-state classifier under the host contract (the
shell output of the probe command is one of the two echoed tags or empty): it
returns Directory, RegularFile or Unknown, and empty output maps to Unknown
rather than an error; the command it passes to `tasker.shell` is the POSIX
`[ -d ]`/`[ -f ]` test with the path enclosed in single quotes such that
POSIX word-lexing recovers the original path exactly (for every path,
including ones containing quotes or metacharacters); and the shell is invoked
non-elevated with a 30-second timeout. -/
theorem claim_C8_stat_classifier (shell : String → Bool → Nat → String)
    (p : String)
    (hout : shell (statCommand p) false 30 = FileType.Directory ∨
            shell (statCommand p) false 30 = FileType.RegularFile ∨
            shell (statCommand p) false 30 = "") :
    (stat shell p = FileType.Directory ∨ stat shell p = FileType.RegularFile ∨
      stat shell p = FileType.Unknown) ∧
    (shell (statCommand p) false 30 = "" → stat shell p = FileType.Unknown) ∧
    shUnquote (escapedFilepath p).data = some p.data ∧
    statShellArgs p = ("\n\t\t\tif [ -d " ++ escapedFilepath p ++
      " ]; then\n\t\t\t\techo \"" ++ "directory" ++ "\"\n\t\t\telif [ -f " ++
      escapedFilepath p ++ " ]; then\n\t\t\t\techo \"" ++ "regular file" ++
      "\"\n\t\t\tfi\n\t\t", false, 30) := by
  refine ⟨?_, ?_, shUnquote_escapedFilepath p, rfl⟩
  · rcases hout with h | h | h
    · exact Or.inl (by rw [stat, statShellArgs]; simp only; rw [h]; rfl)
    · exact Or.inr (Or.inl (by rw [stat, statShellArgs]; simp only; rw [h]; rfl))
    · exact Or.inr (Or.inr (by rw [stat, statShellArgs]; simp only; rw [h]; rfl))
  · intro h
    rw [stat, statShellArgs]; simp only; rw [h]; rfl

/-- C8 witness: a shell oracle that reports a directory for a probed path
containing a single quote and a space. -/
theorem claim_C8_witness :
    (stat (fun _ _ _ => "directory") "/a\x27s dir" = FileType.Directory ∨
     stat (fun _ _ _ => "directory") "/a\x27s dir" = FileType.RegularFile ∨
     stat (fun _ _ _ => "directory") "/a\x27s dir" = FileType.Unknown) ∧
    shUnquote (escapedFilepath "/a\x27s dir").data = some "/a\x27s dir".data :=
  ⟨(claim_C8_stat_classifier (fun _ _ _ => "directory") "/a\x27s dir"
      (Or.inl rfl)).1,
   (claim_C8_stat_classifier (fun _ _ _ => "directory") "/a\x27s dir"
      (Or.inl rfl)).2.2.1⟩

set_option maxHeartbeats 1000000 in
/-- C1: circular requires.  General part (for any environment, state, and
cycle shape): once a module's record is in the module cache — which `loadFile`
arranges before executing its body — a `require` whose identifier resolves back
to that path returns the record as-is with the state unchanged (the quantified
environment never being consulted: no re-read, no re-execution), and the
returned value is exactly the export value the record holds at that moment.
Concrete part (the two-module cycle `/m/a.js` ↔ `/m/b.js`): the inner requires
return the reference `vref 1` that A's record held mid-execution, so B sees
A's pre-cycle export `x` but not the not-yet-made export `y`; A's later
in-place mutation (`y`) lands in the same heap object 1 that B captured, while
A's final reassignment of `module.exports` to the fresh object 3 changes what
`require('/m/a.js')` returns without affecting B's captured reference. -/
theorem claim_C1_circular_requires :
    (∀ (env : Env) (fuel : Nat) (st : St) (caller id A : String) (rec : ModRec),
      st.cache A = some rec →
      (resolveFileM env st id (dirname caller)).1 = some A →
      loadFileF env (fuel + 1) st A = (.ok (some rec), st) ∧
      requireFn env (fuel + 2) st caller id =
        (.ok rec.exports, (resolveFileM env st id (dirname caller)).2)) ∧
    cycRun.1 = .ok (Value.vref 3) ∧
    cycRun.2.cache "/a" = some ⟨"/a", 1, Value.vref 3⟩ ∧
    cycRun.2.cache "/b" = some ⟨"/b", 2, Value.vref 2⟩ ∧
    cycRun.2.heap.getD 2 [] =
      [("seenX", Value.vnat 1), ("seenY", Value.vundef),
       ("captured", Value.vref 1)] ∧
    cycRun.2.heap.getD 1 [] = [("x", Value.vnat 1), ("y", Value.vnat 2)] ∧
    (Value.vref 3 : Value) ≠ Value.vref 1 := by
  constructor
  · intro env fuel st caller id A rec h1 h2
    exact ⟨loadFileF_cacheHit env fuel st A rec h1,
           require_cached env fuel st caller id A rec h1 h2⟩
  · simp [cycRun, requireFn, loadFileF, execBody, execStmt, evalExpr,
      resolveFileM, tryCandidate, resolveSearchPaths, resolvePackage,
      resolveExtension, pkgMain, normalizePath, joinPath, splitChar,
      splitCharAux, normStep, basename, dirname, extname, strStarts,
      listPrefix, joinSegs, lastCharIs, lastTruthy, dropTrailRev,
      setCacheExports, resolveExportsF, heapSet, objSet, objGet, initState,
      mainModule, envCyc, bodyA, bodyB, FileType.Directory,
      FileType.RegularFile, FileType.Unknown, conflictMsg, List.findSome?,
      List.lookup, List.getD]

/-- C1 witness: the general part applied mid-cycle, with `/m/a.js` cached and
`./a.js` (from `/m/b.js`) resolving back to it. -/
theorem claim_C1_witness :
    loadFileF envCyc 1 stMidCyc "/a" = (.ok (some recMidA), stMidCyc) ∧
    requireFn envCyc 2 stMidCyc "/b" "./a" =
      (.ok recMidA.exports,
       (resolveFileM envCyc stMidCyc "./a" (dirname "/b")).2) :=
  (claim_C1_circular_requires.1 envCyc 0 stMidCyc "/b" "./a" "/a"
    recMidA rfl rfl)

/-- C3: resolution probe order.  (1) a success on an earlier candidate
short-circuits: no later candidate is examined; within one candidate (for
`fp := normalizePath (joinPath [path, id])`): (2) if `fp` is a regular file it
wins outright; (3) else if `fp` is a directory and package resolution yields a
file, that wins; (4) else if the identifier has no slash and the candidate's
basename is not `node_modules`, package resolution on the
`candidate/node_modules/identifier` directory wins; (5) else if `fp` does not
end in `/`, extension inference runs, and (6) extension inference tries `.js`
before `.json`; concretely (7) with both `/sp/foo.js` and `/sp/foo.json`
present, `"foo"` resolves to `/sp/foo.js`. -/
theorem claim_C3_probe_order :
    (∀ (env : Env) (id p : String) (rest : List String) (f : String),
      tryCandidate env id p = some f →
      List.findSome? (tryCandidate env id) (p :: rest) = some f) ∧
    (∀ (env : Env) (id path : String),
      env.stat (normalizePath (joinPath [path, id])) = FileType.RegularFile →
      tryCandidate env id path = some (normalizePath (joinPath [path, id]))) ∧
    (∀ (env : Env) (id path f : String),
      env.stat (normalizePath (joinPath [path, id])) = FileType.Directory →
      resolvePackage env (normalizePath (joinPath [path, id])) = some f →
      tryCandidate env id path = some f) ∧
    (∀ (env : Env) (id path f : String),
      env.stat (normalizePath (joinPath [path, id])) ≠ FileType.RegularFile →
      (if env.stat (normalizePath (joinPath [path, id])) = FileType.Directory
       then resolvePackage env (normalizePath (joinPath [path, id]))
       else none) = none →
      id.data.contains '/' = false →
      basename path ≠ some "node_modules" →
      env.stat (normalizePath (joinPath [path, "node_modules", id])) =
        FileType.Directory →
      resolvePackage env (normalizePath (joinPath [path, "node_modules", id])) =
        some f →
      tryCandidate env id path = some f) ∧
    (∀ (env : Env) (id path f : String),
      env.stat (normalizePath (joinPath [path, id])) ≠ FileType.RegularFile →
      (if env.stat (normalizePath (joinPath [path, id])) = FileType.Directory
       then resolvePackage env (normalizePath (joinPath [path, id]))
       else none) = none →
      (if id.data.contains '/' = false ∧ basename path ≠ some "node_modules"
       then (if env.stat (normalizePath (joinPath [path, "node_modules", id])) =
                FileType.Directory
             then resolvePackage env
               (normalizePath (joinPath [path, "node_modules", id]))
             else none)
       else none) = none →
      lastCharIs (normalizePath (joinPath [path, id])) '/' = false →
      resolveExtension env (normalizePath (joinPath [path, id])) false = some f →
      tryCandidate env id path = some f) ∧
    (∀ (env : Env) (fp : String),
      env.stat (fp ++ ".js") = FileType.RegularFile →
      resolveExtension env fp false = some (fp ++ ".js")) ∧
    (resolveFileM envFoo (initState ["/s"]) "f" ".").1 = some "/s/f.js" := by
  refine ⟨?_, ?_, ?_, ?_, ?_, ?_, rfl⟩
  · intro env id p rest f h
    simp [List.findSome?_cons, h]
  · intro env id path h
    simp [tryCandidate, h]
  · intro env id path f hdir hpkg
    simp [tryCandidate, hdir, hpkg, FileType.Directory, FileType.RegularFile]
  · intro env id path f hA hB hNoSlash hBase hDir hPkg
    simp only [tryCandidate, if_neg hA, hB,
      if_pos (show id.data.contains '/' = false ∧
        basename path ≠ some "node_modules" from ⟨hNoSlash, hBase⟩),
      if_pos hDir, hPkg]
  · intro env id path f hA hB hC hSlash hExt
    simp only [tryCandidate, if_neg hA, hB, hC, if_pos hSlash, hExt]
  · intro env fp h
    rw [resolveExtension]
    simp [h]

/-- C3 witness: the dominance, exact-file, and `.js`-first parts applied in the
`envFoo` filesystem. -/
theorem claim_C3_witness :
    List.findSome? (tryCandidate envFoo "f") ("/s" :: ["/o"]) =
      some "/s/f.js" ∧
    tryCandidate envFoo "f.js" "/s" =
      some (normalizePath (joinPath ["/s", "f.js"])) ∧
    resolveExtension envFoo "/s/f" false = some ("/s/f" ++ ".js") :=
  ⟨claim_C3_probe_order.1 envFoo "f" "/s" ["/o"] "/s/f.js" rfl,
   claim_C3_probe_order.2.1 envFoo "f.js" "/s" rfl,
   claim_C3_probe_order.2.2.2.2.2.1 envFoo "/s/f" rfl⟩

/-- C4: `require` is referentially idempotent per resolved file path.  If a
`require` succeeded with value `v`, its identifier having resolved to `F`, then
any later `require` (same or different identifier, any current environment)
whose identifier resolves to the same `F` returns that same reference `v`, and
neither the module cache nor the heap changes (the source is not re-read and
not re-executed, and the set of module records is unchanged — still exactly
one record for `F`). -/
theorem claim_C4_require_idempotent (env env2 : Env) (fuel g : Nat)
    (st st1 : St) (caller caller2 id id2 : String) (v : Value) (F : String)
    (h1 : requireFn env fuel st caller id = (.ok v, st1))
    (h2 : (resolveFileM env st id (dirname caller)).1 = some F)
    (h3 : (resolveFileM env2 st1 id2 (dirname caller2)).1 = some F) :
    requireFn env2 (g + 2) st1 caller2 id2 =
      (.ok v, (resolveFileM env2 st1 id2 (dirname caller2)).2) ∧
    (resolveFileM env2 st1 id2 (dirname caller2)).2.cache = st1.cache ∧
    (resolveFileM env2 st1 id2 (dirname caller2)).2.heap = st1.heap := by
  obtain ⟨F', rec, hres, hcache, hv⟩ :=
    require_ok_inv env fuel st caller id v st1 h1
  have hFF : F' = F := by rw [hres] at h2; exact Option.some.inj h2
  rw [hFF] at hcache
  subst hv
  exact ⟨require_cached env2 g st1 caller2 id2 F rec hcache h3,
         (resolveFileM_preserves env2 st1 id2 (dirname caller2)).1,
         (resolveFileM_preserves env2 st1 id2 (dirname caller2)).2.1⟩

/-- C4 witness: `require('util')` then `require('./util.js')` from the main
module both hit `/lib/util.js` and return the same reference. -/
theorem claim_C4_witness :
    requireFn envUtil 10 utilRun1.2 "" "./u.js" =
      (.ok (Value.vref 1),
       (resolveFileM envUtil utilRun1.2 "./u.js" (dirname "")).2) ∧
    (resolveFileM envUtil utilRun1.2 "./u.js" (dirname "")).2.cache =
      utilRun1.2.cache ∧
    (resolveFileM envUtil utilRun1.2 "./u.js" (dirname "")).2.heap =
      utilRun1.2.heap :=
  claim_C4_require_idempotent envUtil envUtil 8 8 (initState ["/l"])
    utilRun1.2 "" "" "u" "./u.js" (Value.vref 1) "/l/u.js"
    rfl rfl rfl

/-- C5: a failed resolution makes `require` fail with a module-not-found error
naming the identifier, with the state — in particular the resolution cache —
untouched; nothing negative is memoized, so a later resolve of the same
identifier from the same directory re-probes the (possibly changed) filesystem
`env2` and succeeds as soon as some candidate probe does. -/
theorem claim_C5_notfound_not_cached (env env2 : Env) (st : St)
    (caller id f : String) (fuel : Nat)
    (h : (resolveFileM env st id (dirname caller)).1 = none) :
    requireFn env (fuel + 1) st caller id =
      (.error ("Module \"" ++ id ++ "\" not found"), st) ∧
    (resolveFileM env st id (dirname caller)).2 = st ∧
    st.rcache (id, dirname caller) = none ∧
    (List.findSome? (tryCandidate env2 id)
        (resolveSearchPaths id (dirname caller) st.paths) = some f →
      (resolveFileM env2 st id (dirname caller)).1 = some f) := by
  obtain ⟨hst, hmiss, _⟩ := resolveFileM_none_inv env st id (dirname caller) h
  have hp : resolveFileM env st id (dirname caller) = (none, st) :=
    Prod.ext h hst
  refine ⟨?_, hst, hmiss, ?_⟩
  · rw [requireFn]
    simp only [hp]
  · intro hf
    rw [resolveFileM_found env2 st id (dirname caller) f hmiss hf]

/-- C5 witness: `newmod` is missing, fails without caching; after the file
appears (`envLater`), the same pair resolves. -/
theorem claim_C5_witness :
    requireFn envEmpty 6 (initState ["/s"]) "" "n" =
      (.error ("Module \"" ++ "n" ++ "\" not found"), initState ["/s"]) ∧
    (resolveFileM envLater (initState ["/s"]) "n" (dirname "")).1 =
      some "/s/n.js" := by
  have h := claim_C5_notfound_not_cached envEmpty envLater (initState ["/s"])
    "" "n" "/s/n.js" 5 rfl
  exact ⟨h.1, h.2.2.2 rfl⟩

/-- C9: the resolution cache is keyed on the (identifier, requesting-directory)
pair and consulted first: once a pair is memoized, every later resolve of that
pair returns the memoized path with the state untouched, for an arbitrary
current environment (no filesystem probe happens) and an arbitrary current
`require.paths` (later appends cannot change the outcome of an
already-resolved pair). -/
theorem claim_C9_resolution_memoized (env : Env) (st : St) (id dir f : String)
    (ps : List String)
    (h : st.rcache (id, dir) = some f) :
    resolveFileM env { st with paths := ps } id dir =
      (some f, { st with paths := ps }) :=
  resolveFileM_rcache_hit env { st with paths := ps } id dir f h

/-- C9 witness: the memoized `("f", ".")` pair answers from the cache under a
changed search-path list and an empty filesystem. -/
theorem claim_C9_witness :
    resolveFileM envEmpty { stMemo with paths := ["/o"] } "f" "." =
      (some "/s/f.js", { stMemo with paths := ["/o"] }) :=
  claim_C9_resolution_memoized envEmpty stMemo "f" "." "/s/f.js"
    ["/o"] rfl

/-- C10: the main module record is constructed with the empty identifier;
`dirname ""` is `"."`, so a `require` from outside any module body resolves
with requesting directory `"."`, and `resolveSearchPaths` then returns the
global search-path list unchanged for every non-absolute identifier (bare or
relative — the requesting directory is never appended as a candidate), and
`[""]` for absolute identifiers. -/
theorem claim_C10_main_module_resolution :
    mainModule.id = "" ∧
    dirname mainModule.id = "." ∧
    (∀ (id : String) (ps : List String), strStarts id "/" = false →
      resolveSearchPaths id (dirname mainModule.id) ps = ps) ∧
    (∀ (id : String) (ps : List String), strStarts id "/" = true →
      resolveSearchPaths id (dirname mainModule.id) ps = [""]) := by
  refine ⟨rfl, rfl, ?_, ?_⟩
  · intro id ps h
    simp [resolveSearchPaths, h, mainModule, dirname]
  · intro id ps h
    simp [resolveSearchPaths, h]

/-- C10 witness: a bare and a relative identifier from the main module search
only the global paths; an absolute identifier searches `[""]`. -/
theorem claim_C10_witness :
    resolveSearchPaths "u" (dirname mainModule.id) ["/sp"] = ["/sp"] ∧
    resolveSearchPaths "./x" (dirname mainModule.id) ["/sp"] = ["/sp"] ∧
    resolveSearchPaths "/abs/x" (dirname mainModule.id) ["/sp"] = [""] :=
  ⟨claim_C10_main_module_resolution.2.2.1 "u" ["/sp"] (by decide),
   claim_C10_main_module_resolution.2.2.1 "./x" ["/sp"] (by decide),
   claim_C10_main_module_resolution.2.2.2 "/abs/x" ["/sp"] (by decide)⟩

end TaskerCJS
